import Mathlib

/-!
Shallow embedding of the pdf-server request handlers (src/server.js).

The embedding covers:
* the JavaScript truthiness and `parseInt` semantics used by the handlers;
* the page-selection parsing shared by `/extract-pages` and `/rotate-pages`
  (explicit array or range string such as "1,3,5-7", filtered to the
  document's page range);
* the document-level operations of `/protect`, `/unlock`, `/metadata`,
  `/rotate-pages`, `/extract-pages` and `/merge` over an abstract page model;
* the temporary-file lifecycle of the handlers, as an explicit log of file
  creations, paths held by handler variables, and unlink attempts.
-/

namespace PdfServer

/-- Model of the JavaScript values that arrive in a JSON request body field
(restricted to the shapes the handlers inspect: null/undefined, numbers,
strings). -/
inductive JVal where
  | null
  | num (n : Int)
  | str (s : String)
deriving DecidableEq, Repr

/-- JavaScript truthiness for `JVal`: `null`/`undefined`, `0` and `""` are
falsy, everything else truthy. -/
def JVal.truthy : JVal → Bool
  | .null => false
  | .num n => n != 0
  | .str s => s != ""

/-- Leading-digit accumulator for `jsParseInt`: consumes the longest digit
prefix, returning `none` when no digit was consumed (JS `NaN`). -/
def digitsPrefix : List Char → Option Nat → Option Nat
  | [], acc => acc
  | c :: cs, acc =>
    if c.isDigit then digitsPrefix cs (some (acc.getD 0 * 10 + (c.toNat - 48)))
    else acc

/-- JavaScript `parseInt` on a character list: skip leading whitespace,
optional sign, longest digit prefix; `none` models `NaN`. -/
def jsParseIntChars (cs0 : List Char) : Option Int :=
  let cs := cs0.dropWhile Char.isWhitespace
  match cs with
  | '-' :: rest => (digitsPrefix rest none).map (fun n => -(n : Int))
  | '+' :: rest => (digitsPrefix rest none).map (fun n => (n : Int))
  | _ => (digitsPrefix cs none).map (fun n => (n : Int))

/-- JavaScript `parseInt(s, 10)`. -/
def jsParseInt (s : String) : Option Int :=
  jsParseIntChars s.toList

/-- JavaScript `String.prototype.split` with a one-character separator:
splits at every occurrence, keeping empty pieces (`"".split(",") = [""]`,
`"a,".split(",") = ["a", ""]`). -/
def splitOnChar (sep : Char) : List Char → List (List Char)
  | [] => [[]]
  | c :: rest =>
    let r := splitOnChar sep rest
    if c = sep then [] :: r
    else
      match r with
      | h :: t => (c :: h) :: t
      | [] => [[c]]

/-- `parseInt(v, 10)` applied to a request-body value (numbers stringify to
themselves, strings are parsed, `null`/`undefined` give `NaN`). -/
def JVal.parseIntDec : JVal → Option Int
  | .num n => some n
  | .str s => jsParseInt s
  | .null => none

/-- The integer list produced by `for (let i = start; i <= end; i++)`. -/
def intRange (a b : Int) : List Int :=
  (List.range (b + 1 - a).toNat).map (fun i => a + i)

/-- The `pages` request field as the handlers case on it: absent/undefined,
an array, a string, or some other truthy value (e.g. a number). -/
inductive PagesInput where
  | absent
  | arr (xs : List JVal)
  | str (s : String)
  | otherTruthy
deriving DecidableEq, Repr

/-- JavaScript truthiness of the `pages` field. -/
def PagesInput.truthy : PagesInput → Bool
  | .absent => false
  | .str s => s != ""
  | _ => true

/-- One comma-separated part containing "-": split on "-", `parseInt` the
first two pieces, and emit the inclusive range (empty when either end is
`NaN`, mirroring `for (let i = NaN; ...)` never iterating). -/
def parseRangePart (part : List Char) : List (Option Int) :=
  match splitOnChar '-' part with
  | a :: b :: _ =>
    match jsParseIntChars a, jsParseIntChars b with
    | some x, some y => (intRange x y).map some
    | _, _ => []
  | _ => []

/-- The page-number list accumulated from a range string such as "1,3,5-7"
(`none` entries are `NaN`s pushed by a failed `parseInt`). -/
def parsePagesString (s : String) : List (Option Int) :=
  (splitOnChar ',' s.toList).flatMap (fun part =>
    if part.contains '-' then parseRangePart part
    else [jsParseIntChars part])

/-- The raw `pageNumbers` list before filtering: array entries are
`parseInt`ed, strings go through the range parser, anything else leaves the
list empty. -/
def collectPageNumbers : PagesInput → List (Option Int)
  | .arr xs => xs.map JVal.parseIntDec
  | .str s => parsePagesString s
  | _ => []

/-- `pageNumbers.filter((p) => !isNaN(p) && p >= 1 && p <= pageCount)`. -/
def filterValid (raw : List (Option Int)) (pageCount : Nat) : List Int :=
  (raw.filterMap id).filter (fun p => decide (1 ≤ p) && decide (p ≤ (pageCount : Int)))

/-- The resolved selection of `/extract-pages` (its validation guarantees a
truthy `pages`, so there is no all-pages default). -/
def extractSelection (pages : PagesInput) (pageCount : Nat) : List Int :=
  filterValid (collectPageNumbers pages) pageCount

/-- The resolved selection of `/rotate-pages`: a falsy `pages` selects every
page, otherwise the parsed list; both go through the same filter. -/
def rotateSelection (pages : PagesInput) (pageCount : Nat) : List Int :=
  let raw : List (Option Int) :=
    if !pages.truthy then (List.range pageCount).map (fun i => some ((i : Int) + 1))
    else collectPageNumbers pages
  filterValid raw pageCount

/-- Abstract page content: an original page identified by an id, or the
warning page drawn by `/protect` (whose text embeds the password). -/
inductive PageContent where
  | orig (n : Nat)
  | warning (password : String)
deriving DecidableEq, Repr

/-- A page: abstract content plus its `/Rotate` angle. -/
structure PPage where
  content : PageContent
  rotation : Int
deriving DecidableEq, Repr

/-- A loaded `PDFDocument`: page list plus the metadata fields the handlers
touch. -/
structure PdfDoc where
  pages : List PPage
  title : Option String := none
  author : Option String := none
  subject : Option String := none
  keywords : Option String := none
deriving DecidableEq, Repr

/-- The blank page appended by `/protect` with the warning text drawn on it. -/
def warningPage (password : String) : PPage := ⟨.warning password, 0⟩

/-- `/protect` transformation: `pdf.addPage()` appends a warning page at the
end, then `setTitle` and `setSubject` record the logical protection. -/
def protectOp (doc : PdfDoc) (password : String) : PdfDoc :=
  { doc with
    pages := doc.pages ++ [warningPage password],
    title := some "Protected (logical) PDF",
    subject := some ("Password: " ++ password) }

/-- `/unlock` transformation: copy pages `startIndex .. pageCount-1` (with
`startIndex = 1` whenever the document has more than one page) into a fresh
document titled "Unlocked PDF". -/
def unlockOp (doc : PdfDoc) : PdfDoc :=
  let pageCount := doc.pages.length
  let startIndex := if 1 < pageCount then 1 else 0
  { pages := doc.pages.drop startIndex, title := some "Unlocked PDF" }

/-- `if (field) pdf.setField(field)`: a missing or empty-string (falsy) value
leaves the current metadata untouched. -/
def setIfTruthy (cur new : Option String) : Option String :=
  match new with
  | some s => if s = "" then cur else some s
  | none => cur

/-- `/metadata` transformation: conditionally overwrite each of the four
metadata fields. -/
def metadataOp (doc : PdfDoc) (title author subject keywords : Option String) : PdfDoc :=
  { doc with
    title := setIfTruthy doc.title title,
    author := setIfTruthy doc.author author,
    subject := setIfTruthy doc.subject subject,
    keywords := setIfTruthy doc.keywords keywords }

/-- `allPages[j].setRotation(...)`: replace the rotation of the page at
0-based index `j`, leaving the list unchanged when `j` is out of range. -/
def setRotationAt : List PPage → Nat → Int → List PPage
  | [], _, _ => []
  | pg :: rest, 0, a => { pg with rotation := a } :: rest
  | pg :: rest, Nat.succ j, a => pg :: setRotationAt rest j a

/-- `pageNumbers.forEach((p) => allPages[p - 1].setRotation(...))`. -/
def applyRotations (pgs : List PPage) (sel : List Int) (a : Int) : List PPage :=
  sel.foldl (fun ps p => setRotationAt ps (p - 1).toNat a) pgs

/-- `/rotate-pages` transformation: `angleDeg = parseInt(angle, 10) || 0`,
then set (not add) that angle on every selected page. -/
def rotatePagesOp (doc : PdfDoc) (pages : PagesInput) (angle : JVal) : PdfDoc :=
  let angleDeg := (angle.parseIntDec).getD 0
  let sel := rotateSelection pages doc.pages.length
  { doc with pages := applyRotations doc.pages sel angleDeg }

/-- `/extract-pages` transformation: `none` models the
`"No valid pages specified"` throw; otherwise the new document holds the
selected pages in selection order. -/
def extractPagesOp (doc : PdfDoc) (pages : PagesInput) : Option PdfDoc :=
  let sel := extractSelection pages doc.pages.length
  if sel.isEmpty then none
  else some { pages := sel.filterMap (fun p => doc.pages.get? (p - 1).toNat) }

/-! ## Temporary-file lifecycle

The handlers allocate temp files via `createTempFile`/`fs.createWriteStream`
and delete them via `safeDelete` (which returns silently on a null path and
ignores `fs.unlink` errors).  `FsLog` records, per request: the files
actually created on disk, the paths the handler retains in its variables
(`source`, `output`, `tempFiles`), and every unlink attempt (repetitions
included, in order). -/

/-- Per-request temp-file accounting. -/
structure FsLog where
  nextId : Nat := 0
  created : List Nat := []
  held : List Nat := []
  unlinks : List Nat := []
deriving DecidableEq, Repr

/-- A temp file is materialized on disk; returns its fresh id. -/
def FsLog.alloc (log : FsLog) : Nat × FsLog :=
  (log.nextId,
   { log with nextId := log.nextId + 1, created := log.created ++ [log.nextId] })

/-- The handler records the file's path in one of its variables. -/
def FsLog.hold (log : FsLog) (fid : Nat) : FsLog :=
  { log with held := log.held ++ [fid] }

/-- `safeDelete(path)`: a null path attempts nothing, otherwise one unlink
attempt is recorded (its outcome is ignored by the source). -/
def FsLog.unlink (log : FsLog) (f : Option Nat) : FsLog :=
  match f with
  | none => log
  | some fid => { log with unlinks := log.unlinks ++ [fid] }

/-- `paths.forEach(safeDelete)` over a list of non-null paths. -/
def FsLog.unlinkList (log : FsLog) (fs : List Nat) : FsLog :=
  fs.foldl (fun l f => l.unlink (some f)) log

/-- Outcome of `downloadToTempFile`: success with the downloaded size, a
failure before the write stream creates the file (e.g. `axios` throws), or a
write-stream error after the temp file exists on disk (the promise rejects
and the path never reaches the handler). -/
inductive Download where
  | ok (size : Nat)
  | failEarly
  | failAfterCreate
deriving DecidableEq, Repr

/-- The response the handler produces. -/
inductive Resp where
  | json (status : Nat)
  | pdfStream (fileName : String)
deriving DecidableEq, Repr

/-- `MAX_SIZE_BYTES = 150 * 1024 * 1024`. -/
def MAX_SIZE_BYTES : Nat := 150 * 1024 * 1024

/-- What a handler run yields: the response, the temp-file log, whether a
download was started, whether the PDF transformation was reached, and the
produced document (for the endpoints whose output the claims inspect). -/
structure HResult where
  resp : Resp
  log : FsLog
  downloadAttempted : Bool := false
  transformInvoked : Bool := false
  output : Option PdfDoc := none
deriving DecidableEq, Repr

/-! ### `/compress` -/

/-- `/compress` request body. -/
structure CompressReq where
  publicUrl : JVal
deriving DecidableEq, Repr

/-- Environment for a `/compress` run: download outcome, whether
`PDFDocument.load` succeeds, whether the response stream closes cleanly. -/
structure CompressEnv where
  download : Download
  loadOk : Bool
  streamOk : Bool
deriving DecidableEq, Repr

/-- The `/compress` handler (src/server.js lines 131-183): validate that
`publicUrl` is a truthy string, download, enforce the size ceiling (on
violation `ensureSizeLimit` deletes the source and throws, and the catch
deletes it again and answers 413), load, save, write the output temp file,
and stream it with cleanup of `[source, output]`; any other throw answers
500 after the same cleanup. -/
def compressHandler (req : CompressReq) (env : CompressEnv) : HResult :=
  match req.publicUrl with
  | JVal.str u =>
    if u = "" then { resp := .json 400, log := {} }
    else
      match env.download with
      | .failEarly =>
        { resp := .json 500, log := {}, downloadAttempted := true }
      | .failAfterCreate =>
        { resp := .json 500, log := (FsLog.alloc {}).2, downloadAttempted := true }
      | .ok size =>
        let (src, log) := FsLog.alloc {}
        let log := log.hold src
        if MAX_SIZE_BYTES < size then
          { resp := .json 413,
            log := (log.unlink (some src)).unlink (some src),
            downloadAttempted := true }
        else if !env.loadOk then
          { resp := .json 500, log := log.unlink (some src), downloadAttempted := true }
        else
          let (outp, log) := log.alloc
          let log := log.hold outp
          let log := (log.unlink (some src)).unlink (some outp)
          { resp := (if env.streamOk then .pdfStream "compressed.pdf" else .json 500),
            log := log, downloadAttempted := true, transformInvoked := true }
  | _ => { resp := .json 400, log := {} }

/-! ### `/extract-pages` -/

/-- `/extract-pages` request body. -/
structure ExtractReq where
  publicUrl : JVal
  pages : PagesInput
deriving DecidableEq, Repr

/-- Environment for `/extract-pages`: download outcome, the document
`PDFDocument.load` yields (`none` = load throws), stream outcome. -/
structure ExtractEnv where
  download : Download
  srcDoc : Option PdfDoc
  streamOk : Bool
deriving DecidableEq, Repr

/-- The `/extract-pages` handler (src/server.js lines 238-307): validate
both fields truthy, download, size-check, load, resolve the page selection,
throw on an empty selection, copy the selected pages, and stream with
cleanup; every throw is answered with 500 (this catch has no 413 branch). -/
def extractHandler (req : ExtractReq) (env : ExtractEnv) : HResult :=
  if !req.publicUrl.truthy || !req.pages.truthy then
    { resp := .json 400, log := {} }
  else
    match env.download with
    | .failEarly =>
      { resp := .json 500, log := {}, downloadAttempted := true }
    | .failAfterCreate =>
      { resp := .json 500, log := (FsLog.alloc {}).2, downloadAttempted := true }
    | .ok size =>
      let (src, log) := FsLog.alloc {}
      let log := log.hold src
      if MAX_SIZE_BYTES < size then
        { resp := .json 500,
          log := (log.unlink (some src)).unlink (some src),
          downloadAttempted := true }
      else
        match env.srcDoc with
        | none =>
          { resp := .json 500, log := log.unlink (some src), downloadAttempted := true }
        | some doc =>
          match extractPagesOp doc req.pages with
          | none =>
            { resp := .json 500, log := log.unlink (some src), downloadAttempted := true }
          | some outDoc =>
            let (outp, log) := log.alloc
            let log := log.hold outp
            let log := (log.unlink (some src)).unlink (some outp)
            { resp := (if env.streamOk then .pdfStream "extracted-pages.pdf" else .json 500),
              log := log, downloadAttempted := true, transformInvoked := true,
              output := some outDoc }

/-! ### `/rotate-pages` -/

/-- `/rotate-pages` request body. -/
structure RotateReq where
  publicUrl : JVal
  pages : PagesInput
  angle : JVal
deriving DecidableEq, Repr

/-- Environment for `/rotate-pages`. -/
structure RotateEnv where
  download : Download
  srcDoc : Option PdfDoc
  streamOk : Bool
deriving DecidableEq, Repr

/-- The `/rotate-pages` handler (src/server.js lines 560-623): validation is
`if (!publicUrl || !angle)` — a falsy `angle` (absent, `0`, `""`) is
rejected with 400 before any download; otherwise download, size-check,
load, rotate the selected pages, and stream with cleanup; throws answer
500. -/
def rotateHandler (req : RotateReq) (env : RotateEnv) : HResult :=
  if !req.publicUrl.truthy || !req.angle.truthy then
    { resp := .json 400, log := {} }
  else
    match env.download with
    | .failEarly =>
      { resp := .json 500, log := {}, downloadAttempted := true }
    | .failAfterCreate =>
      { resp := .json 500, log := (FsLog.alloc {}).2, downloadAttempted := true }
    | .ok size =>
      let (src, log) := FsLog.alloc {}
      let log := log.hold src
      if MAX_SIZE_BYTES < size then
        { resp := .json 500,
          log := (log.unlink (some src)).unlink (some src),
          downloadAttempted := true }
      else
        match env.srcDoc with
        | none =>
          { resp := .json 500, log := log.unlink (some src), downloadAttempted := true }
        | some doc =>
          let outDoc := rotatePagesOp doc req.pages req.angle
          let (outp, log) := log.alloc
          let log := log.hold outp
          let log := (log.unlink (some src)).unlink (some outp)
          { resp := (if env.streamOk then .pdfStream "rotated.pdf" else .json 500),
            log := log, downloadAttempted := true, transformInvoked := true,
            output := some outDoc }

/-! ### `/merge` -/

/-- `/merge` request body: `none` models a non-array `publicUrls`. -/
structure MergeReq where
  publicUrls : Option (List String)
deriving DecidableEq, Repr

/-- Environment for `/merge`: per-index download outcome and loaded
document, plus the stream outcome. -/
structure MergeEnv where
  fetch : Nat → Download
  loads : Nat → Option PdfDoc
  streamOk : Bool

/-- The download/append loop of `/merge`: for each URL download to a temp
file, push its path onto `tempFiles`, size-check (deleting and throwing on
violation), load, and append all its pages to the merge document.  Returns
whether the loop completed, the log so far, and the accumulated pages. -/
def mergeLoop (env : MergeEnv) : List String → Nat → FsLog → List PPage →
    Bool × FsLog × List PPage
  | [], _, log, acc => (true, log, acc)
  | _ :: rest, i, log, acc =>
    match env.fetch i with
    | .failEarly => (false, log, acc)
    | .failAfterCreate => (false, (FsLog.alloc log).2, acc)
    | .ok size =>
      let (fid, log) := log.alloc
      let log := log.hold fid
      if MAX_SIZE_BYTES < size then
        (false, log.unlink (some fid), acc)
      else
        match env.loads i with
        | none => (false, log, acc)
        | some doc => mergeLoop env rest (i + 1) log (acc ++ doc.pages)

/-- The `/merge` handler (src/server.js lines 187-234): validate that
`publicUrls` is an array of length at least 2, run the loop, save the merge
document to a new temp file and stream it with cleanup of
`[...tempFiles, mergedPath]`; on a throw the catch deletes every
`tempFiles` entry and `mergedPath` and answers 500. -/
def mergeHandler (req : MergeReq) (env : MergeEnv) : HResult :=
  match req.publicUrls with
  | none => { resp := .json 400, log := {} }
  | some urls =>
    if urls.length < 2 then { resp := .json 400, log := {} }
    else
      match mergeLoop env urls 0 {} [] with
      | (true, log, pages) =>
        let (mid, log) := log.alloc
        let log := log.hold mid
        let log := log.unlinkList log.held
        { resp := (if env.streamOk then .pdfStream "merged.pdf" else .json 500),
          log := log, downloadAttempted := true, transformInvoked := true,
          output := some { pages := pages } }
      | (false, log, _) =>
        let log := log.unlinkList log.held
        { resp := .json 500, log := log, downloadAttempted := true }

/-! ## Helper lemmas -/

/-- Every page number surviving the validity filter lies in `[1, pageCount]`. -/
theorem mem_filterValid {raw : List (Option Int)} {pageCount : Nat} {p : Int}
    (hp : p ∈ filterValid raw pageCount) : 1 ≤ p ∧ p ≤ (pageCount : Int) := by
  unfold filterValid at hp
  have h2 := (List.mem_filter.mp hp).2
  rw [Bool.and_eq_true] at h2
  exact ⟨of_decide_eq_true h2.1, of_decide_eq_true h2.2⟩

/-- Bounds for the `/extract-pages` selection. -/
theorem mem_extractSelection {pages : PagesInput} {pageCount : Nat} {p : Int}
    (hp : p ∈ extractSelection pages pageCount) : 1 ≤ p ∧ p ≤ (pageCount : Int) :=
  mem_filterValid hp

/-- Bounds for the `/rotate-pages` selection. -/
theorem mem_rotateSelection {pages : PagesInput} {pageCount : Nat} {p : Int}
    (hp : p ∈ rotateSelection pages pageCount) : 1 ≤ p ∧ p ≤ (pageCount : Int) := by
  unfold rotateSelection at hp
  exact mem_filterValid hp

/-- `setRotationAt` preserves the page count. -/
theorem length_setRotationAt (pgs : List PPage) (j : Nat) (a : Int) :
    (setRotationAt pgs j a).length = pgs.length := by
  induction pgs generalizing j with
  | nil => rfl
  | cons pg rest ih => cases j <;> simp [setRotationAt, ih]

/-- Pointwise description of `setRotationAt`. -/
theorem getElem?_setRotationAt (pgs : List PPage) (j : Nat) (a : Int) (i : Nat) :
    (setRotationAt pgs j a)[i]? =
      if i = j then pgs[i]?.map (fun pg => { pg with rotation := a })
      else pgs[i]? := by
  induction pgs generalizing i j with
  | nil => simp [setRotationAt]
  | cons pg rest ih =>
    cases j with
    | zero => cases i <;> simp [setRotationAt]
    | succ j => cases i <;> simp [setRotationAt, ih]

/-- `applyRotations` preserves the page count. -/
theorem length_applyRotations (pgs : List PPage) (sel : List Int) (a : Int) :
    (applyRotations pgs sel a).length = pgs.length := by
  induction sel generalizing pgs with
  | nil => rfl
  | cons p sel ih =>
    have h : applyRotations pgs (p :: sel) a
        = applyRotations (setRotationAt pgs (p - 1).toNat a) sel a := rfl
    rw [h, ih, length_setRotationAt]

/-- Pointwise description of the `/rotate-pages` `forEach` loop: the page at
0-based index `i` ends with rotation `a` exactly when the 1-based number
`i + 1` is selected (all selected numbers being at least 1). -/
theorem getElem?_applyRotations (pgs : List PPage) (sel : List Int) (a : Int)
    (hsel : ∀ p ∈ sel, 1 ≤ p) (i : Nat) :
    (applyRotations pgs sel a)[i]? =
      if ((i : Int) + 1) ∈ sel then
        pgs[i]?.map (fun pg => { pg with rotation := a })
      else pgs[i]? := by
  induction sel generalizing pgs with
  | nil => simp [applyRotations]
  | cons p sel ih =>
    have hp : 1 ≤ p := hsel p (List.mem_cons_self p sel)
    have hrest : ∀ q ∈ sel, 1 ≤ q := fun q hq => hsel q (List.mem_cons_of_mem _ hq)
    have hfold : applyRotations pgs (p :: sel) a
        = applyRotations (setRotationAt pgs (p - 1).toNat a) sel a := rfl
    rw [hfold, ih _ hrest, getElem?_setRotationAt]
    by_cases hip : ((i : Int) + 1) = p
    · have hidx : i = (p - 1).toNat := by omega
      rw [if_pos hidx, if_pos (List.mem_cons.mpr (Or.inl hip))]
      by_cases hmem : ((i : Int) + 1) ∈ sel
      · rw [if_pos hmem]
        cases h : pgs[i]? <;> rfl
      · rw [if_neg hmem]
    · have hidx : ¬ i = (p - 1).toNat := by omega
      rw [if_neg hidx]
      have hcond : (((i : Int) + 1) ∈ p :: sel) = (((i : Int) + 1) ∈ sel) :=
        propext (by simp [List.mem_cons, hip])
      simp only [hcond]

/-- Unlinking a path list appends it to the attempt log. -/
theorem unlinks_unlinkList (log : FsLog) (fs : List Nat) :
    (log.unlinkList fs).unlinks = log.unlinks ++ fs := by
  induction fs generalizing log with
  | nil => simp [FsLog.unlinkList]
  | cons f fs ih =>
    have h : log.unlinkList (f :: fs) = (log.unlink (some f)).unlinkList fs := rfl
    rw [h, ih]
    simp [FsLog.unlink]

/-- Unlinking leaves the held-path list untouched. -/
theorem held_unlinkList (log : FsLog) (fs : List Nat) :
    (log.unlinkList fs).held = log.held := by
  induction fs generalizing log with
  | nil => rfl
  | cons f fs ih =>
    have h : log.unlinkList (f :: fs) = (log.unlink (some f)).unlinkList fs := rfl
    rw [h, ih]
    rfl

/-- After the catch/cleanup pattern `log.unlinkList log.held`, every held
path has an unlink attempt. -/
theorem mem_unlinks_unlinkList_held (log : FsLog) :
    ∀ f ∈ (log.unlinkList log.held).held, f ∈ (log.unlinkList log.held).unlinks := by
  intro f hf
  rw [held_unlinkList] at hf
  rw [unlinks_unlinkList]
  exact List.mem_append_right _ hf

/-! ## Claims -/

/-- C1 counterexample: on the oversized-source path of `/compress` the
handler materializes one temporary file but attempts two deletions of it
(`ensureSizeLimit` deletes the source and throws, then the catch block
deletes it again), so "exactly N deletions for N allocations" fails. -/
theorem compress_oversize_one_alloc_two_unlinks :
    (compressHandler ⟨JVal.str "u"⟩
        ⟨Download.ok (MAX_SIZE_BYTES + 1), true, true⟩).log.created.length = 1 ∧
    (compressHandler ⟨JVal.str "u"⟩
        ⟨Download.ok (MAX_SIZE_BYTES + 1), true, true⟩).log.unlinks.length = 2 := by
  decide

/-- C1 (amended): for every request to `/compress`, `/extract-pages`,
`/rotate-pages` or `/merge` and every exit path, every temporary file whose
path the handler records in its variables receives at least one deletion
attempt before the handler returns control (the oversized source receives
two); `safeDelete` swallows unlink errors, so no deletion failure is
surfaced. -/
theorem held_temp_files_unlink_attempted
    (creq : CompressReq) (cenv : CompressEnv) (ereq : ExtractReq) (eenv : ExtractEnv)
    (rreq : RotateReq) (renv : RotateEnv) (mreq : MergeReq) (menv : MergeEnv) :
    (∀ f ∈ (compressHandler creq cenv).log.held, f ∈ (compressHandler creq cenv).log.unlinks) ∧
    (∀ f ∈ (extractHandler ereq eenv).log.held, f ∈ (extractHandler ereq eenv).log.unlinks) ∧
    (∀ f ∈ (rotateHandler rreq renv).log.held, f ∈ (rotateHandler rreq renv).log.unlinks) ∧
    (∀ f ∈ (mergeHandler mreq menv).log.held, f ∈ (mergeHandler mreq menv).log.unlinks) := by
  refine ⟨?_, ?_, ?_, ?_⟩
  · obtain ⟨pu⟩ := creq
    obtain ⟨dl, lo, st⟩ := cenv
    cases pu with
    | null => simp [compressHandler]
    | num n => simp [compressHandler]
    | str u =>
      by_cases hu : u = ""
      · simp [compressHandler, hu]
      · cases dl with
        | failEarly => simp [compressHandler, hu]
        | failAfterCreate => simp [compressHandler, hu, FsLog.alloc]
        | ok size =>
          by_cases hsz : MAX_SIZE_BYTES < size
          · simp [compressHandler, hu, hsz, FsLog.alloc, FsLog.hold, FsLog.unlink]
          · cases lo <;> cases st <;>
              simp [compressHandler, hu, hsz, FsLog.alloc, FsLog.hold, FsLog.unlink]
  · obtain ⟨pu, pg⟩ := ereq
    obtain ⟨dl, sd, st⟩ := eenv
    by_cases hval : (!pu.truthy || !pg.truthy) = true
    · simp [extractHandler, hval]
    · cases dl with
      | failEarly => simp [extractHandler, hval]
      | failAfterCreate => simp [extractHandler, hval, FsLog.alloc]
      | ok size =>
        by_cases hsz : MAX_SIZE_BYTES < size
        · simp [extractHandler, hval, hsz, FsLog.alloc, FsLog.hold, FsLog.unlink]
        · cases sd with
          | none => simp [extractHandler, hval, hsz, FsLog.alloc, FsLog.hold, FsLog.unlink]
          | some doc =>
            cases hop : extractPagesOp doc pg with
            | none =>
              simp [extractHandler, hval, hsz, hop, FsLog.alloc, FsLog.hold, FsLog.unlink]
            | some outDoc =>
              cases st <;>
                simp [extractHandler, hval, hsz, hop, FsLog.alloc, FsLog.hold, FsLog.unlink]
  · obtain ⟨pu, pg, an⟩ := rreq
    obtain ⟨dl, sd, st⟩ := renv
    by_cases hval : (!pu.truthy || !an.truthy) = true
    · simp [rotateHandler, hval]
    · cases dl with
      | failEarly => simp [rotateHandler, hval]
      | failAfterCreate => simp [rotateHandler, hval, FsLog.alloc]
      | ok size =>
        by_cases hsz : MAX_SIZE_BYTES < size
        · simp [rotateHandler, hval, hsz, FsLog.alloc, FsLog.hold, FsLog.unlink]
        · cases sd with
          | none => simp [rotateHandler, hval, hsz, FsLog.alloc, FsLog.hold, FsLog.unlink]
          | some doc =>
            cases st <;>
              simp [rotateHandler, hval, hsz, FsLog.alloc, FsLog.hold, FsLog.unlink]
  · obtain ⟨urlsOpt⟩ := mreq
    cases urlsOpt with
    | none => simp [mergeHandler]
    | some urls =>
      by_cases hlen : urls.length < 2
      · simp [mergeHandler, hlen]
      · rcases hml : mergeLoop menv urls 0 {} [] with ⟨ok, log2, pgs⟩
        cases ok
        · simp only [mergeHandler, if_neg hlen, hml]
          exact mem_unlinks_unlinkList_held _
        · simp only [mergeHandler, if_neg hlen, hml, FsLog.alloc, FsLog.hold]
          exact mem_unlinks_unlinkList_held _

/-- C1 witness: the oversized `/compress` request holds the source path and
indeed attempts its deletion. -/
theorem held_temp_files_unlink_attempted_witness :
    0 ∈ (compressHandler ⟨JVal.str "u"⟩
        ⟨Download.ok (MAX_SIZE_BYTES + 1), true, true⟩).log.held ∧
    0 ∈ (compressHandler ⟨JVal.str "u"⟩
        ⟨Download.ok (MAX_SIZE_BYTES + 1), true, true⟩).log.unlinks :=
  ⟨by decide,
   (held_temp_files_unlink_attempted
      ⟨JVal.str "u"⟩ ⟨Download.ok (MAX_SIZE_BYTES + 1), true, true⟩
      ⟨JVal.null, PagesInput.absent⟩ ⟨Download.ok 0, none, true⟩
      ⟨JVal.null, PagesInput.absent, JVal.null⟩ ⟨Download.ok 0, none, true⟩
      ⟨none⟩ ⟨fun _ => Download.ok 0, fun _ => none, true⟩).1 0 (by decide)⟩

/-- C2 counterexample: an oversized source on `/extract-pages` is answered
with status 500, not 413 — only the `/compress` catch inspects the
"File too large" message. -/
theorem extract_oversize_responds_500_not_413 :
    (extractHandler ⟨JVal.str "u", PagesInput.str "1"⟩
        ⟨Download.ok (MAX_SIZE_BYTES + 1), none, true⟩).resp = Resp.json 500 ∧
    Resp.json 500 ≠ Resp.json 413 := by
  decide

/-- C2 (amended): an oversized downloaded source yields 413 on `/compress`
but 500 on `/extract-pages`; in both cases the transformation is never
invoked and every materialized temporary file receives a deletion attempt,
so none survives the request. -/
theorem oversize_rejected_without_transform
    (u : String) (hu : ¬ u = "") (sz : Nat) (hsz : MAX_SIZE_BYTES < sz)
    (cload cstream : Bool) (ereq : ExtractReq)
    (hep : ereq.publicUrl.truthy = true) (heg : ereq.pages.truthy = true)
    (edoc : Option PdfDoc) (estream : Bool) :
    (compressHandler ⟨JVal.str u⟩ ⟨Download.ok sz, cload, cstream⟩).resp = Resp.json 413 ∧
    (extractHandler ereq ⟨Download.ok sz, edoc, estream⟩).resp = Resp.json 500 ∧
    (compressHandler ⟨JVal.str u⟩ ⟨Download.ok sz, cload, cstream⟩).transformInvoked = false ∧
    (extractHandler ereq ⟨Download.ok sz, edoc, estream⟩).transformInvoked = false ∧
    (∀ f ∈ (compressHandler ⟨JVal.str u⟩ ⟨Download.ok sz, cload, cstream⟩).log.created,
      f ∈ (compressHandler ⟨JVal.str u⟩ ⟨Download.ok sz, cload, cstream⟩).log.unlinks) ∧
    (∀ f ∈ (extractHandler ereq ⟨Download.ok sz, edoc, estream⟩).log.created,
      f ∈ (extractHandler ereq ⟨Download.ok sz, edoc, estream⟩).log.unlinks) := by
  obtain ⟨pu, pg⟩ := ereq
  refine ⟨?_, ?_, ?_, ?_, ?_, ?_⟩ <;>
    simp [compressHandler, extractHandler, hu, hsz, hep, heg,
      FsLog.alloc, FsLog.hold, FsLog.unlink] at *

/-- C2 witness: concrete oversized requests hitting both endpoints. -/
theorem oversize_rejected_without_transform_witness :
    (compressHandler ⟨JVal.str "u"⟩
        ⟨Download.ok (MAX_SIZE_BYTES + 1), true, true⟩).resp = Resp.json 413 ∧
    (extractHandler ⟨JVal.str "u", PagesInput.str "1"⟩
        ⟨Download.ok (MAX_SIZE_BYTES + 1), none, true⟩).resp = Resp.json 500 :=
  ⟨(oversize_rejected_without_transform "u" (by decide) (MAX_SIZE_BYTES + 1)
      (by decide) true true ⟨JVal.str "u", PagesInput.str "1"⟩ (by decide) (by decide)
      none true).1,
   (oversize_rejected_without_transform "u" (by decide) (MAX_SIZE_BYTES + 1)
      (by decide) true true ⟨JVal.str "u", PagesInput.str "1"⟩ (by decide) (by decide)
      none true).2.1⟩

/-- C3 counterexample: `/rotate-pages` on a one-page document whose page
already carries rotation 90, with requested angle 90, leaves the page at
rotation 90 — the handler sets the absolute angle — whereas
"previous rotation plus delta normalized modulo 360" predicts 180. -/
theorem rotate_sets_absolute_angle :
    ((rotatePagesOp { pages := [⟨PageContent.orig 0, 90⟩] } PagesInput.absent
        (JVal.num 90)).pages.map PPage.rotation) = [90] ∧
    ((90 + 90) % 360 : Int) = 180 ∧ (90 : Int) ≠ 180 := by
  decide

/-- C3 (amended): for every rotate request, each selected page's rotation is
set to the requested angle (`parseInt(angle, 10) || 0`), replacing — not
adding to — its previous rotation, and pages outside the selection keep
their previous rotation. -/
theorem rotate_pages_sets_selected_rotation
    (doc : PdfDoc) (pages : PagesInput) (angle : JVal) (i : Nat) :
    (rotatePagesOp doc pages angle).pages[i]? =
      doc.pages[i]?.map (fun pg =>
        if ((i : Int) + 1) ∈ rotateSelection pages doc.pages.length
        then { pg with rotation := (JVal.parseIntDec angle).getD 0 }
        else pg) := by
  have h := getElem?_applyRotations doc.pages (rotateSelection pages doc.pages.length)
      ((JVal.parseIntDec angle).getD 0) (fun p hp => (mem_rotateSelection hp).1) i
  show (applyRotations doc.pages (rotateSelection pages doc.pages.length)
      ((JVal.parseIntDec angle).getD 0))[i]? = _
  rw [h]
  by_cases hmem : ((i : Int) + 1) ∈ rotateSelection pages doc.pages.length
  · rw [if_pos hmem]
    cases doc.pages[i]? <;> simp [hmem]
  · rw [if_neg hmem]
    cases doc.pages[i]? <;> simp [hmem]

/-- C4 counterexample: the resolved page sequence is neither sorted nor
de-duplicated — "2,1" resolves to [2, 1] and "1,1" to [1, 1]. -/
theorem resolved_pages_not_sorted_not_dedup :
    extractSelection (PagesInput.str "2,1") 8 = [2, 1] ∧
    ¬ List.Sorted (· ≤ ·) (extractSelection (PagesInput.str "2,1") 8) ∧
    extractSelection (PagesInput.str "1,1") 8 = [1, 1] ∧
    ¬ (extractSelection (PagesInput.str "1,1") 8).Nodup := by
  decide

/-- C4 (amended): the resolved page sequence preserves input order and
multiplicity, dropping only invalid entries; for "1,3,5-7" against an
8-page document it equals [1, 3, 5, 6, 7], which happens to be strictly
sorted and duplicate-free, matching the expected set \x7b1,3,5,6,7\x7d. -/
theorem range_string_example_resolves_sorted :
    extractSelection (PagesInput.str "1,3,5-7") 8 = [1, 3, 5, 6, 7] ∧
    List.Sorted (· < ·) (extractSelection (PagesInput.str "1,3,5-7") 8) ∧
    (extractSelection (PagesInput.str "1,3,5-7") 8).Nodup := by
  decide

/-- C5 (code bug): `/protect` appends its warning page at the end of the
document, but `/unlock` removes the first page; on a two-page document the
round trip yields [page2, warning], not the original [page1, page2] the
unlock comment promises. -/
theorem protect_unlock_not_page_roundtrip :
    (unlockOp (protectOp { pages := [⟨PageContent.orig 1, 0⟩, ⟨PageContent.orig 2, 0⟩] }
        "pw")).pages
      = [⟨PageContent.orig 2, 0⟩, warningPage "pw"] ∧
    ([⟨PageContent.orig 2, 0⟩, warningPage "pw"] : List PPage)
      ≠ [⟨PageContent.orig 1, 0⟩, ⟨PageContent.orig 2, 0⟩] := by
  decide

/-- Validity of the `/merge` environment for a URL list: starting at index
`i`, each download succeeds within the size ceiling and each file loads as
the corresponding document. -/
def FetchOk (env : MergeEnv) : Nat → List String → List PdfDoc → Prop
  | _, [], [] => True
  | i, _ :: us, d :: ds =>
    (∃ sz, sz ≤ MAX_SIZE_BYTES ∧ env.fetch i = .ok sz) ∧
      env.loads i = some d ∧ FetchOk env (i + 1) us ds
  | _, _, _ => False

/-- When every source is valid, the `/merge` loop completes and accumulates
the concatenation of all input pages in input order. -/
theorem mergeLoop_ok (env : MergeEnv) (urls : List String) (docs : List PdfDoc) :
    ∀ (i : Nat) (log : FsLog) (acc : List PPage), FetchOk env i urls docs →
      ∃ log', mergeLoop env urls i log acc
        = (true, log', acc ++ (docs.map PdfDoc.pages).flatten) := by
  induction urls generalizing docs with
  | nil =>
    intro i log acc h
    cases docs with
    | nil => exact ⟨log, by simp [mergeLoop]⟩
    | cons d ds => exact absurd h (by simp [FetchOk])
  | cons u us ih =>
    intro i log acc h
    cases docs with
    | nil => exact absurd h (by simp [FetchOk])
    | cons d ds =>
      obtain ⟨⟨sz, hsz, hfetch⟩, hload, hrest⟩ := h
      obtain ⟨log', hlog'⟩ := ih ds (i + 1)
        ((log.alloc.2.hold log.alloc.1)) (acc ++ d.pages) hrest
      refine ⟨log', ?_⟩
      simp only [mergeLoop, hfetch, hload, if_neg (Nat.not_lt.mpr hsz)]
      rw [hlog']
      simp [List.append_assoc]

/-- C6: for every merge request with at least 2 valid sources, the output
document is exactly the concatenation of the input documents' pages in
input order, so its page count is the sum of the input page counts. -/
theorem merge_concatenates_in_input_order
    (urls : List String) (env : MergeEnv) (docs : List PdfDoc)
    (hlen : 2 ≤ urls.length) (hok : FetchOk env 0 urls docs) :
    (mergeHandler ⟨some urls⟩ env).output
      = some { pages := (docs.map PdfDoc.pages).flatten } ∧
    ((docs.map PdfDoc.pages).flatten).length = (docs.map (fun d => d.pages.length)).sum := by
  obtain ⟨log', hloop⟩ := mergeLoop_ok env urls docs 0 {} [] hok
  constructor
  · simp [mergeHandler, Nat.not_lt.mpr hlen, hloop]
  · simp [Function.comp_def]

/-- C6 witness: merging a 1-page and a 2-page document yields the 3 pages in
input order. -/
theorem merge_concatenates_in_input_order_witness :
    (mergeHandler ⟨some ["a", "b"]⟩
        ⟨fun _ => Download.ok 0,
         fun i => if i = 0 then some { pages := [⟨PageContent.orig 1, 0⟩] }
                  else some { pages := [⟨PageContent.orig 2, 0⟩, ⟨PageContent.orig 3, 0⟩] },
         true⟩).output
      = some { pages := [⟨PageContent.orig 1, 0⟩, ⟨PageContent.orig 2, 0⟩,
                         ⟨PageContent.orig 3, 0⟩] } := by
  have h := merge_concatenates_in_input_order ["a", "b"]
    ⟨fun _ => Download.ok 0,
     fun i => if i = 0 then some { pages := [⟨PageContent.orig 1, 0⟩] }
              else some { pages := [⟨PageContent.orig 2, 0⟩, ⟨PageContent.orig 3, 0⟩] },
     true⟩
    [{ pages := [⟨PageContent.orig 1, 0⟩] },
     { pages := [⟨PageContent.orig 2, 0⟩, ⟨PageContent.orig 3, 0⟩] }]
    (by decide)
    ⟨⟨0, Nat.zero_le _, rfl⟩, rfl, ⟨0, Nat.zero_le _, rfl⟩, rfl, trivial⟩
  simpa using h.1

/-- C7: every page number in a resolved selection lies in `[1, pageCount]`
(out-of-range and non-numeric entries are dropped by the filter), so the
0-based index `p - 1` used by `/extract-pages` and `/rotate-pages` is
always in bounds and rotating never changes the page count. -/
theorem page_selection_in_bounds (pages : PagesInput) (pageCount : Nat) :
    (∀ p ∈ extractSelection pages pageCount, 1 ≤ p ∧ p ≤ (pageCount : Int)) ∧
    (∀ p ∈ rotateSelection pages pageCount, (p - 1).toNat < pageCount) ∧
    (∀ (doc : PdfDoc) (angle : JVal),
      (rotatePagesOp doc pages angle).pages.length = doc.pages.length) := by
  refine ⟨fun p hp => mem_extractSelection hp, fun p hp => ?_, fun doc angle => ?_⟩
  · have h := mem_rotateSelection hp
    omega
  · show (applyRotations doc.pages _ _).length = _
    exact length_applyRotations _ _ _

/-- C7 witness: in "0,2,abc,99" against a 3-page document only page 2
survives, and it is in bounds. -/
theorem page_selection_in_bounds_witness :
    (2 : Int) ∈ extractSelection (PagesInput.str "0,2,abc,99") 3 ∧
    (1 ≤ (2 : Int) ∧ (2 : Int) ≤ ((3 : Nat) : Int)) :=
  ⟨by decide, (page_selection_in_bounds (PagesInput.str "0,2,abc,99") 3).1 2 (by decide)⟩

/-- C8 counterexample: a metadata request supplying the empty-string title
(falsy) leaves the original title in place instead of writing the supplied
value. -/
theorem metadata_empty_title_not_applied :
    (metadataOp { pages := [], title := some "orig" } (some "") none none none).title
      = some "orig" ∧ (some "orig" : Option String) ≠ some "" := by
  decide

/-- C8 (amended): for every metadata request supplying only a non-empty
title, the output title is exactly the supplied value and author, subject
and keywords are unchanged. -/
theorem metadata_title_only_updates_title
    (doc : PdfDoc) (t : String) (ht : ¬ t = "") :
    (metadataOp doc (some t) none none none).title = some t ∧
    (metadataOp doc (some t) none none none).author = doc.author ∧
    (metadataOp doc (some t) none none none).subject = doc.subject ∧
    (metadataOp doc (some t) none none none).keywords = doc.keywords := by
  simp [metadataOp, setIfTruthy, ht]

/-- C8 witness: setting title "X" on a document with existing metadata. -/
theorem metadata_title_only_updates_title_witness :
    (metadataOp { pages := [], author := some "a" } (some "X") none none none).title
      = some "X" ∧
    (metadataOp { pages := [], author := some "a" } (some "X") none none none).author
      = some "a" :=
  ⟨(metadata_title_only_updates_title { pages := [], author := some "a" } "X" (by decide)).1,
   (metadata_title_only_updates_title { pages := [], author := some "a" } "X" (by decide)).2.1⟩

/-- C9: a request failing field validation (no usable `publicUrl` for
`/compress`, fewer than 2 URLs for `/merge`, falsy `publicUrl` or `pages`
for `/extract-pages`) is answered 400 with no download attempted and no
temporary file allocated. -/
theorem missing_fields_fail_fast
    (creq : CompressReq) (cenv : CompressEnv)
    (hc : ∀ u : String, creq.publicUrl = JVal.str u → u = "")
    (mreq : MergeReq) (menv : MergeEnv)
    (hm : ∀ urls, mreq.publicUrls = some urls → urls.length < 2)
    (ereq : ExtractReq) (eenv : ExtractEnv)
    (he : ereq.publicUrl.truthy = false ∨ ereq.pages.truthy = false) :
    compressHandler creq cenv = { resp := Resp.json 400, log := {} } ∧
    mergeHandler mreq menv = { resp := Resp.json 400, log := {} } ∧
    extractHandler ereq eenv = { resp := Resp.json 400, log := {} } := by
  refine ⟨?_, ?_, ?_⟩
  · obtain ⟨pu⟩ := creq
    cases pu with
    | null => rfl
    | num n => rfl
    | str u =>
      have hu : u = "" := hc u rfl
      subst hu
      rfl
  · obtain ⟨urlsOpt⟩ := mreq
    cases urlsOpt with
    | none => rfl
    | some urls => simp [mergeHandler, hm urls rfl]
  · obtain ⟨pu, pg⟩ := ereq
    rcases he with h | h <;> simp [extractHandler, h]

/-- C9 witness: concrete invalid requests for all three endpoints. -/
theorem missing_fields_fail_fast_witness :
    compressHandler ⟨JVal.null⟩ ⟨Download.ok 0, true, true⟩
      = { resp := Resp.json 400, log := {} } ∧
    mergeHandler ⟨some ["a"]⟩ ⟨fun _ => Download.ok 0, fun _ => none, true⟩
      = { resp := Resp.json 400, log := {} } ∧
    extractHandler ⟨JVal.str "u", PagesInput.absent⟩ ⟨Download.ok 0, none, true⟩
      = { resp := Resp.json 400, log := {} } :=
  missing_fields_fail_fast ⟨JVal.null⟩ ⟨Download.ok 0, true, true⟩
    (fun u h => by cases h)
    ⟨some ["a"]⟩ ⟨fun _ => Download.ok 0, fun _ => none, true⟩
    (fun urls h => by injection h with h2; rw [← h2]; decide)
    ⟨JVal.str "u", PagesInput.absent⟩ ⟨Download.ok 0, none, true⟩
    (Or.inr rfl)

/-- C10: a `/rotate-pages` request whose `angle` is falsy (the number 0, the
empty string, or absent) is rejected with 400 before any download or
transformation, exactly as if the field were missing. -/
theorem rotate_falsy_angle_rejected (req : RotateReq) (env : RotateEnv)
    (h : req.angle.truthy = false) :
    rotateHandler req env = { resp := Resp.json 400, log := {} } := by
  obtain ⟨pu, pg, an⟩ := req
  simp [rotateHandler, h]

/-- C10 witness: `angle = 0` is falsy and gets the 400 answer with no
download and no temp file. -/
theorem rotate_falsy_angle_rejected_witness :
    (JVal.num 0).truthy = false ∧
    rotateHandler ⟨JVal.str "u", PagesInput.absent, JVal.num 0⟩
        ⟨Download.ok 0, some { pages := [] }, true⟩
      = { resp := Resp.json 400, log := {} } :=
  ⟨by decide,
   rotate_falsy_angle_rejected ⟨JVal.str "u", PagesInput.absent, JVal.num 0⟩
     ⟨Download.ok 0, some { pages := [] }, true⟩ (by decide)⟩

end PdfServer
